import Mathlib

/-!
A shallow embedding of parts of the Stella Atari 2600 emulator: the audio
resampling pipeline (`ConvolutionBuffer`, `LanczosResampler`) and the
`Console` glue (save/load, format/Y-start autodetection, user palettes),
together with theorems checking the natural-language specification
against the code.

Machine integers are modelled as `Nat` with explicit wrap (`% 2 ^ 32`)
where overflow can occur; IEEE floats are modelled as exact rationals
(`ℚ`); the numeric values of the Lanczos kernels (evaluated with `sin`
in the source) are kept abstract as a table parameter, since no claim
depends on them.  Components of the repository that are not under
`src/` (the `System`/controller/switch serialization, the TIA frame
update, the frame-layout and Y-start detectors, the `HighPass` filter
and the audio-queue callback) are modelled from the spec; their
definitions say so in their doc comments.
-/

namespace Stella

/-! ### ConvolutionBuffer (src/common/audio/ConvolutionBuffer.cxx) -/

/-- Fixed-size circular float buffer.  `myData` is the backing store
(`mySize` in the source is the allocation size, here `myData.length`);
`myFirstIndex` is the index of the oldest stored sample. -/
structure ConvolutionBuffer where
  myData : List ℚ
  myFirstIndex : Nat

/-- `mySize`: the fixed size of the buffer. -/
def ConvolutionBuffer.mySize (b : ConvolutionBuffer) : Nat := b.myData.length

/-- The constructor: a zero-filled buffer of the given size (the source
allocates `size` floats, memsets them to 0 and starts `myFirstIndex` at 0). -/
def mkConvolutionBuffer (size : Nat) : ConvolutionBuffer :=
  { myData := List.replicate size 0, myFirstIndex := 0 }

/-- `ConvolutionBuffer::shift`:
`myData[myFirstIndex] = nextValue; myFirstIndex = (myFirstIndex + 1) % mySize;` -/
def ConvolutionBuffer.shift (b : ConvolutionBuffer) (nextValue : ℚ) : ConvolutionBuffer :=
  { myData := b.myData.set b.myFirstIndex nextValue,
    myFirstIndex := (b.myFirstIndex + 1) % b.mySize }

/-- The loop of `ConvolutionBuffer::convoluteWith`: the partial sum of
`kernel[i] * myData[(myFirstIndex + i) % mySize]` over `i < m`. -/
def convAux (data kernel : List ℚ) (first sz : Nat) : Nat → ℚ
  | 0 => 0
  | m + 1 => convAux data kernel first sz m + kernel.getD m 0 * data.getD ((first + m) % sz) 0

/-- `ConvolutionBuffer::convoluteWith` (a `const` member: it only reads the
buffer, which the embedding reflects by returning just the value). -/
def ConvolutionBuffer.convoluteWith (b : ConvolutionBuffer) (kernel : List ℚ) : ℚ :=
  convAux b.myData kernel b.myFirstIndex b.mySize b.mySize

/-- The `i`-th oldest sample held by the buffer (the sample at offset `i`
from `myFirstIndex`, wrapping around). -/
def nthOldest (b : ConvolutionBuffer) (i : Nat) : ℚ :=
  b.myData.getD ((b.myFirstIndex + i) % b.mySize) 0

/-! ### reducedDenominator (src/common/audio/LanczosResampler.cxx, lines 30-41) -/

/-- The loop of the anonymous-namespace helper `reducedDenominator`:

```
for (uInt32 i = std::min(n, d); i > 1; --i) {
  if ((n % i == 0) && (d % i == 0)) { n /= i; d /= i; i = std::min(n, d); }
}
return d;
```

After a division step the `for` decrement runs before the next test, so
the next tested value is `min (n / i) (d / i) - 1`. -/
def reduceLoop (n d i : Nat) : Nat :=
  if h1 : 1 < i then
    if h2 : n % i = 0 ∧ d % i = 0 then
      reduceLoop (n / i) (d / i) (min (n / i) (d / i) - 1)
    else
      reduceLoop n d (i - 1)
  else d
termination_by (n + d, i)
decreasing_by
  · rcases Nat.eq_zero_or_pos n with hn | hn
    · rcases Nat.eq_zero_or_pos d with hd | hd
      · subst hn; subst hd
        simp only [Nat.zero_div, Nat.min_self, Nat.zero_sub, Nat.add_zero]
        exact Prod.Lex.right 0 (by omega)
      · apply Prod.Lex.left
        have h3 : d / i < d := Nat.div_lt_self hd h1
        have h4 : n / i ≤ n := Nat.div_le_self n i
        omega
    · apply Prod.Lex.left
      have h3 : n / i < n := Nat.div_lt_self hn h1
      have h4 : d / i ≤ d := Nat.div_le_self d i
      omega
  · exact Prod.Lex.right (n + d) (by omega)

/-- `reducedDenominator(n, d)` from the source. -/
def reducedDenominator (n d : Nat) : Nat := reduceLoop n d (min n d)

/-! ### LanczosResampler state (src/common/audio/LanczosResampler.cxx) -/

/-- `Resampler::Format` (src/common/audio/Resampler.hxx). -/
structure Format where
  sampleRate : Nat
  fragmentSize : Nat
  stereo : Bool

/-- State of a one-pole high-pass filter. -/
structure HighPass where
  alpha : ℚ
  lastIn : ℚ
  lastOut : ℚ

/-- Modelled from the spec: the `HighPass` filter class is not under `src/`;
the spec (§4.3) prescribes "a fixed-cutoff high-pass filter per channel ...
to remove DC offset/bias before convolution".  This is the standard one-pole
high-pass with coefficient `alpha`; its numeric behaviour is irrelevant to
the claims settled here. -/
def HighPass.apply (h : HighPass) (valueIn : ℚ) : ℚ × HighPass :=
  let valueOut := h.alpha * (h.lastOut + valueIn - h.lastIn)
  (valueOut, { h with lastIn := valueIn, lastOut := valueOut })

/-- The members of `LanczosResampler` (and of its base `Resampler`).  The
producer callback `myNextFragmentCallback` is modelled by the pending
fragment list `queue` (the audio queue is interface-only in the spec): a
call pops the head, and an empty queue is a `nullptr` return.  The kernel
table holds abstract rational coefficients (`myKernels phase tap`), since
the floating-point sinc values never matter to the claims.  `underrunLog`
counts the diagnostic "audio buffer underrun" messages. -/
structure LanczosResampler where
  formatFrom : Format
  formatTo : Format
  myPrecomputedKernelCount : Nat
  myKernelSize : Nat
  myCurrentKernelIndex : Nat
  myKernelParameter : Nat
  myKernels : Nat → Nat → ℚ
  myCurrentFragment : Option (List Int)
  myFragmentIndex : Nat
  myIsUnderrun : Bool
  myHighPassL : HighPass
  myHighPassR : HighPass
  myHighPass : HighPass
  myTimeIndex : Nat
  myBufferL : ConvolutionBuffer
  myBufferR : ConvolutionBuffer
  myBuffer : ConvolutionBuffer
  queue : List (List Int)
  underrunLog : Nat

/-- The `LanczosResampler` constructor (lines 59-98): kernel count from
`reducedDenominator`, kernel size `2 * kernelParameter`, zeroed counters,
`myIsUnderrun = true`, no current fragment, zero-filled convolution buffers
of size `myKernelSize`.  (The source allocates either the mono buffer or
the stereo pair; the model simply carries all three, the unused ones idle.) -/
def mkLanczosResampler (formatFrom formatTo : Format) (queue : List (List Int))
    (kernelParameter : Nat) (kernels : Nat → Nat → ℚ) (alpha : ℚ) : LanczosResampler :=
  { formatFrom := formatFrom
    formatTo := formatTo
    myPrecomputedKernelCount := reducedDenominator formatFrom.sampleRate formatTo.sampleRate
    myKernelSize := 2 * kernelParameter
    myCurrentKernelIndex := 0
    myKernelParameter := kernelParameter
    myKernels := kernels
    myCurrentFragment := none
    myFragmentIndex := 0
    myIsUnderrun := true
    myHighPassL := ⟨alpha, 0, 0⟩
    myHighPassR := ⟨alpha, 0, 0⟩
    myHighPass := ⟨alpha, 0, 0⟩
    myTimeIndex := 0
    myBufferL := mkConvolutionBuffer (2 * kernelParameter)
    myBufferR := mkConvolutionBuffer (2 * kernelParameter)
    myBuffer := mkConvolutionBuffer (2 * kernelParameter)
    queue := queue
    underrunLog := 0 }

/-- One round of the `while` loop of `LanczosResampler::shiftSamples`
(lines 187-212): push the next (high-passed, `/ 0x7fff`-normalized) source
sample(s) into the convolution buffer(s), advance `myFragmentIndex`, and on
exhausting the current fragment wrap the index and pull the next fragment
from the producer; a null return is the logged underrun. -/
def shiftOne (st : LanczosResampler) : LanczosResampler :=
  match st.myCurrentFragment with
  | none => st
  | some frag =>
    let st1 :=
      if st.formatFrom.stereo then
        let pL := st.myHighPassL.apply (((frag.getD (2 * st.myFragmentIndex) 0 : Int) : ℚ) / 32767)
        let pR := st.myHighPassR.apply (((frag.getD (2 * st.myFragmentIndex + 1) 0 : Int) : ℚ) / 32767)
        { st with myBufferL := st.myBufferL.shift pL.1, myHighPassL := pL.2,
                  myBufferR := st.myBufferR.shift pR.1, myHighPassR := pR.2 }
      else
        let p := st.myHighPass.apply (((frag.getD st.myFragmentIndex 0 : Int) : ℚ) / 32767)
        { st with myBuffer := st.myBuffer.shift p.1, myHighPass := p.2 }
    let st2 := { st1 with myFragmentIndex := st1.myFragmentIndex + 1 }
    if st2.formatFrom.fragmentSize ≤ st2.myFragmentIndex then
      let st3 := { st2 with myFragmentIndex := st2.myFragmentIndex % st2.formatFrom.fragmentSize }
      match st3.queue with
      | f :: q => { st3 with queue := q, myCurrentFragment := some f, myIsUnderrun := false }
      | [] => { st3 with underrunLog := st3.underrunLog + 1, myIsUnderrun := true }
    else st2

/-- `LanczosResampler::shiftSamples(samplesToShift)`: run `shiftOne`
`samplesToShift` times. -/
def shiftSamples : LanczosResampler → Nat → LanczosResampler
  | st, 0 => st
  | st, k + 1 => shiftSamples (shiftOne st) k

/-- The output buffer of `fillFragment`, as a partial map: `none` means the
slot was never written by the call. -/
def writeOut (f : Nat → Option ℚ) (k : Nat) (v : ℚ) : Nat → Option ℚ :=
  fun n => if n = k then some v else f n

/-- One iteration (output sample `i`) of the `for` loop in
`LanczosResampler::fillFragment` (lines 153-183): select the current
kernel, advance the kernel index mod the kernel count, convolve (per the
stereo/mono source and target combinations) into the output slot(s), then
accumulate `myTimeIndex` (a `uInt32`) and shift the history buffers when
a source step is due. -/
def fillIter (st : LanczosResampler) (out : Nat → Option ℚ) (i : Nat) :
    LanczosResampler × (Nat → Option ℚ) :=
  let kernel : List ℚ := (List.range st.myKernelSize).map (st.myKernels st.myCurrentKernelIndex)
  let st1 := { st with
    myCurrentKernelIndex := (st.myCurrentKernelIndex + 1) % st.myPrecomputedKernelCount }
  let out1 :=
    if st1.formatFrom.stereo then
      let sampleL := st1.myBufferL.convoluteWith kernel
      let sampleR := st1.myBufferR.convoluteWith kernel
      if st1.formatTo.stereo then writeOut (writeOut out (2 * i) sampleL) (2 * i + 1) sampleR
      else writeOut out i ((sampleL + sampleR) / 2)
    else
      let sample := st1.myBuffer.convoluteWith kernel
      if st1.formatTo.stereo then writeOut (writeOut out (2 * i) sample) (2 * i + 1) sample
      else writeOut out i sample
  let st2 := { st1 with myTimeIndex := (st1.myTimeIndex + st1.formatFrom.sampleRate) % 2 ^ 32 }
  let samplesToShift := st2.myTimeIndex / st2.formatTo.sampleRate
  if samplesToShift = 0 then (st2, out1)
  else (shiftSamples { st2 with myTimeIndex := st2.myTimeIndex % st2.formatTo.sampleRate }
          samplesToShift, out1)

/-- The `for` loop of `fillFragment`, output indices `i, i+1, ..., i+r-1`. -/
def fillFrom : LanczosResampler → (Nat → Option ℚ) → Nat → Nat → LanczosResampler × (Nat → Option ℚ)
  | st, out, _, 0 => (st, out)
  | st, out, i, r + 1 =>
    let p := fillIter st out i
    fillFrom p.1 p.2 (i + 1) r

/-- The entry check of `fillFragment` (lines 136-144): when underrun, try to
pull a fresh fragment from the producer and reset `myFragmentIndex`. -/
def pullIfUnderrun (st : LanczosResampler) : LanczosResampler :=
  if st.myIsUnderrun then
    match st.queue with
    | f :: q =>
      { st with queue := q, myCurrentFragment := some f, myFragmentIndex := 0,
                myIsUnderrun := false }
    | [] => st
  else st

/-- `LanczosResampler::fillFragment(fragment, length)` (lines 134-184): after
the underrun pull, either memset the whole `length`-entry output to zero
(no fragment was ever obtained), or run the output loop for
`length >> 1` (stereo target) respectively `length` (mono target) samples. -/
def fillFragment (st : LanczosResampler) (len : Nat) :
    LanczosResampler × (Nat → Option ℚ) :=
  let st1 := pullIfUnderrun st
  match st1.myCurrentFragment with
  | none => (st1, fun i => if i < len then some 0 else none)
  | some _ =>
    let outputSamples := if st1.formatTo.stereo then len / 2 else len
    fillFrom st1 (fun _ => none) 0 outputSamples

/-- How many output slots the loop of `fillFragment` writes for `m` loop
iterations: both samples of each stereo pair, or one sample each. -/
def coveredTo (b : Bool) (m : Nat) : Nat := if b then 2 * m else m

/-- A concrete resampler state used to exhibit the behaviour of
`fillFragment` for a stereo target: mono source, stereo target, a current
fragment present (as after a first successful pull). -/
def stC1 : LanczosResampler :=
  { mkLanczosResampler ⟨2, 2, false⟩ ⟨2, 2, true⟩ [] 1 (fun _ _ => 0) 0 with
    myCurrentFragment := some [0, 0], myIsUnderrun := false }

/-! ### Console glue (src/emucore/Console.cxx)

`System`, the controllers, `Switches`, the TIA frame update and the two
detectors are not under `src/`; the model below follows the spec for them:
each serializable component is an opaque state blob that `save` writes
whole and `load` restores whole (spec §6: "persist and restore complete
chip and frame-layout state"), a TIA frame update is an arbitrary step
function on the chip blob, and each detector is an arbitrary classification
function of the observed frames. -/

/-- Serialized component state: an opaque blob of data. -/
abbrev Blob := List Nat

/-- Broadcast frame layouts (FrameLayout.hxx). -/
inductive FrameLayout
  | ntsc
  | pal
deriving DecidableEq

/-- Which frame manager is installed in the TIA. -/
inductive FMKind
  | normal
  | layoutDetector
  | ystartDetector
deriving DecidableEq

/-- Observable events of the autodetection harnesses: installing a frame
manager, one `myTIA->update()` frame, and a `mySystem->reset(true)`. -/
inductive Ev
  | setFM (k : FMKind)
  | tiaUpdate
  | sysReset
deriving DecidableEq

/-- The `Console` members the claims are about.  `mySystem` (which owns the
chip and frame-layout state), the two controllers and the switches are the
serializable components; `myFrameManager` records which frame manager is
currently installed in the TIA. -/
structure Console where
  mySystem : Blob
  myLeftControl : Blob
  myRightControl : Blob
  mySwitches : Blob
  myFrameManager : FMKind
  myDisplayFormat : String
  myAutodetectedYstart : Nat
  myYStartAutodetected : Bool
deriving DecidableEq

/-- `constexpr uInt8 YSTART_EXTRA = 2` (Console.cxx line 76). -/
def YSTART_EXTRA : Nat := 2

/-- `uInt32` subtraction with wraparound (`4294967296 = 2 ^ 32`). -/
def u32sub (a b : Nat) : Nat := (a + 4294967296 - b) % 4294967296

/-- Number of `tiaUpdate` events in a trace that happen while frame manager
`k` is the installed one (`cur` is the manager installed at the start). -/
def countUpd (k cur : FMKind) : List Ev → Nat
  | [] => 0
  | Ev.setFM k2 :: es => countUpd k k2 es
  | Ev.tiaUpdate :: es => (if cur = k then 1 else 0) + countUpd k cur es
  | Ev.sysReset :: es => countUpd k cur es

/-- Modelled from the spec: running `myTIA->update()` `n` times with a
detector installed.  Each update advances the chip state by the step
function and lets the installed detector observe the resulting frame;
the collected observations are what the detector classifies. -/
def runDetection (step : Blob → Blob) : Nat → Blob → Blob × List Blob
  | 0, b => (b, [])
  | n + 1, b =>
    let b1 := step b
    let p := runDetection step n b1
    (p.1, b1 :: p.2)

/-- Modelled from the spec: `FrameLayoutDetector::detectedLayout()` is not
under `src/`.  The detector classifies the observed frames; when no stable
pattern was found within the bounded window (`classify` returns `none`) it
falls back to the documented default, the NTSC-class layout. -/
def detectedLayout (classify : List Blob → Option FrameLayout) (obs : List Blob) : FrameLayout :=
  (classify obs).getD FrameLayout.ntsc

/-- `Console::autodetectFrameLayout(reset)` (lines 225-247): install a
`FrameLayoutDetector` as the TIA's frame manager, optionally reset the
system, run `myTIA->update()` 60 times, reinstall the normal frame
manager (the detector, a stack local, is discarded), and set
`myDisplayFormat` to "PAL" exactly when the detector reports the PAL
layout, else "NTSC".  (The `fastscbios` settings dance touches only the
external settings collaborator and is omitted.)  The second component is
the event trace of the call. -/
def autodetectFrameLayout (step resetB : Blob → Blob)
    (classify : List Blob → Option FrameLayout) (reset : Bool) (st : Console) :
    Console × List Ev :=
  let st1 := { st with myFrameManager := FMKind.layoutDetector }
  let st2 := if reset then { st1 with mySystem := resetB st1.mySystem } else st1
  let p := runDetection step 60 st2.mySystem
  let st3 := { st2 with mySystem := p.1, myFrameManager := FMKind.normal }
  let st4 := { st3 with
    myDisplayFormat :=
      if detectedLayout classify p.2 = FrameLayout.pal then "PAL" else "NTSC" }
  (st4,
    Ev.setFM FMKind.layoutDetector ::
      ((if reset then [Ev.sysReset] else []) ++
        (List.replicate 60 Ev.tiaUpdate ++ [Ev.setFM FMKind.normal])))

/-- `Console::autodetectYStart(reset)` (lines 265-289): install a
`YStartDetector` (configured with the PAL layout exactly when
`myDisplayFormat == "PAL"`), optionally reset, run `myTIA->update()` 80
times, reinstall the normal frame manager, then set
`myAutodetectedYstart = ystartDetector.detectedYStart() - YSTART_EXTRA`
(`uInt32` arithmetic) and `myYStartAutodetected = true`.  The detector's
report is modelled from the spec by the function `ysd` of the configured
layout and the observed frames. -/
def autodetectYStart (step resetB : Blob → Blob)
    (ysd : FrameLayout → List Blob → Nat) (reset : Bool) (st : Console) :
    Console × List Ev :=
  let layout := if st.myDisplayFormat = "PAL" then FrameLayout.pal else FrameLayout.ntsc
  let st1 := { st with myFrameManager := FMKind.ystartDetector }
  let st2 := if reset then { st1 with mySystem := resetB st1.mySystem } else st1
  let p := runDetection step 80 st2.mySystem
  let st3 := { st2 with mySystem := p.1, myFrameManager := FMKind.normal }
  let st4 := { st3 with
    myAutodetectedYstart := u32sub (ysd layout p.2) YSTART_EXTRA,
    myYStartAutodetected := true }
  (st4,
    Ev.setFM FMKind.ystartDetector ::
      ((if reset then [Ev.sysReset] else []) ++
        (List.replicate 80 Ev.tiaUpdate ++ [Ev.setFM FMKind.normal])))

/-- The value the `YStartDetector` reports during `autodetectYStart`
(a statement helper: the configured layout and observations spelled out). -/
def ysDetected (step resetB : Blob → Blob) (ysd : FrameLayout → List Blob → Nat)
    (reset : Bool) (st : Console) : Nat :=
  ysd (if st.myDisplayFormat = "PAL" then FrameLayout.pal else FrameLayout.ntsc)
    (runDetection step 80 (if reset then resetB st.mySystem else st.mySystem)).2

/-- `Console::save(out)` (lines 306-326): save the system state, then the
left controller, right controller and switches, in that order.  Each
component appends its complete state to the serializer (modelled from the
spec; the components' own `save` are not under `src/`). -/
def Console.save (st : Console) (out : List Blob) : List Blob :=
  out ++ [st.mySystem, st.myLeftControl, st.myRightControl, st.mySwitches]

/-- `Console::load(in)` (lines 329-349): load the system state, then the
left controller, right controller and switches, in that order, returning
`false` as soon as one component fails to restore (a failed or throwing
component read — here an exhausted serializer — is the failure, caught and
surfaced as `false`).  Each successful component read replaces that
component's state whole (modelled from the spec).  Note the sequencing:
components read before the failing one keep their newly loaded state. -/
def Console.load (ser : List Blob) (st : Console) : Bool × Console :=
  match ser with
  | [] => (false, st)
  | sys :: s1 =>
    let st1 := { st with mySystem := sys }
    match s1 with
    | [] => (false, st1)
    | l :: s2 =>
      let st2 := { st1 with myLeftControl := l }
      match s2 with
      | [] => (false, st2)
      | r :: s3 =>
        let st3 := { st2 with myRightControl := r }
        match s3 with
        | [] => (false, st3)
        | sw :: _ => (true, { st3 with mySwitches := sw })

/-- `Console::redetectFrameLayout()` (lines 250-262): save into a fresh
serializer, rerun layout autodetection without reset (plus Y-start
autodetection when it had been autodetected), then load the saved state
back.  (`sound().close()` / `initializeAudio()` touch only the external
audio collaborator and are omitted.) -/
def redetectFrameLayout (step resetB : Blob → Blob)
    (classify : List Blob → Option FrameLayout) (ysd : FrameLayout → List Blob → Nat)
    (st : Console) : Console :=
  let s := Console.save st []
  let st1 := (autodetectFrameLayout step resetB classify false st).1
  let st2 := if st1.myYStartAutodetected then (autodetectYStart step resetB ysd true st1).1
             else st1
  (Console.load s st2).2

/-- `Console::redetectYStart()` (lines 292-303): save, rerun Y-start
autodetection without a system reset (the source passes
`autodetectYStart(false)`, line 299), load back. -/
def redetectYStart (step resetB : Blob → Blob) (ysd : FrameLayout → List Blob → Nat)
    (st : Console) : Console :=
  let s := Console.save st []
  let st1 := (autodetectYStart step resetB ysd false st).1
  (Console.load s st1).2

/-- A concrete console state for counterexamples and witnesses. -/
def st0c : Console :=
  { mySystem := [0], myLeftControl := [0], myRightControl := [0], mySwitches := [0],
    myFrameManager := FMKind.normal, myDisplayFormat := "NTSC",
    myAutodetectedYstart := 0, myYStartAutodetected := false }

/-! ### User palettes (`Console::loadUserPalette`, lines 955-1007) -/

/-- The user palette tables and flag.  The 256-entry tables are modelled as
total maps from index to the stored `uInt32` pixel. -/
structure PaletteState where
  ourUserNTSCPalette : Nat → Nat
  ourUserPALPalette : Nat → Nat
  ourUserSECAMPalette : Nat → Nat
  myUserPaletteDefined : Bool

/-- A single table write `tbl[k] = v`. -/
def setIdx (tbl : Nat → Nat) (k v : Nat) : Nat → Nat :=
  fun n => if n = k then v else tbl n

/-- The loops `for (i = 0; i < n; i++) tbl[i << 1] = pix(i)`. -/
def fillEven (tbl : Nat → Nat) (pix : Nat → Nat) : Nat → (Nat → Nat)
  | 0 => tbl
  | n + 1 => setIdx (fillEven tbl pix n) (2 * n) (pix n)

/-- Writing `tbl[k] = v k` for every `k < n` in order (the SECAM copy loop
overwrites all 256 entries). -/
def fillAll (tbl : Nat → Nat) (v : Nat → Nat) : Nat → (Nat → Nat)
  | 0 => tbl
  | n + 1 => setIdx (fillAll tbl v n) n (v n)

/-- The 24-bit pixel assembled from the `i`-th consecutive 3-byte triple
starting at byte offset `off`:
`(pixbuf[0] << 16) + (pixbuf[1] << 8) + pixbuf[2]`. -/
def pixelAt (bytes : List Nat) (off i : Nat) : Nat :=
  bytes.getD (off + 3 * i) 0 * 65536 + bytes.getD (off + 3 * i + 1) 0 * 256 +
    bytes.getD (off + 3 * i + 2) 0

/-- `Console::loadUserPalette`: `none` models a file that cannot be opened
(the `if(!in) return;`); a file shorter than `128 * 3 * 2 + 8 * 3` bytes is
rejected with no side effects.  Otherwise the NTSC and PAL tables get their
128 even entries from consecutive triples, and the SECAM table is filled by
repeating sixteen times the 16-entry block of the 8 SECAM triples at even
positions with zeros at odd positions; finally `myUserPaletteDefined = true`. -/
def loadUserPalette (file : Option (List Nat)) (st : PaletteState) : PaletteState :=
  match file with
  | none => st
  | some bytes =>
    if bytes.length < 128 * 3 * 2 + 8 * 3 then st
    else
      let secamArr : Nat → Nat := fun j => if j % 2 = 0 then pixelAt bytes 768 (j / 2) else 0
      { ourUserNTSCPalette := fillEven st.ourUserNTSCPalette (pixelAt bytes 0) 128
        ourUserPALPalette := fillEven st.ourUserPALPalette (pixelAt bytes 384) 128
        ourUserSECAMPalette := fillAll st.ourUserSECAMPalette (fun k => secamArr (k % 16)) 256
        myUserPaletteDefined := true }

/-- A concrete palette state (all tables zero, flag off — the state at
console construction). -/
def st0p : PaletteState :=
  { ourUserNTSCPalette := fun _ => 0, ourUserPALPalette := fun _ => 0,
    ourUserSECAMPalette := fun _ => 0, myUserPaletteDefined := false }

/-- A concrete convolution buffer for witnesses. -/
def cb0 : ConvolutionBuffer := ⟨[1, 2, 3], 1⟩

/-! ### Theorems -/

theorem reduceLoop_eq_gcd (n d i : Nat) :
    0 < n → 0 < d → (∀ k, 1 < k → k ∣ n → k ∣ d → k ≤ i) →
    reduceLoop n d i = d / Nat.gcd n d := by
  induction n, d, i using reduceLoop.induct with
  | case1 n d i h1 h2 ih =>
    intro hn hd hinv
    have hdvn : i ∣ n := Nat.dvd_of_mod_eq_zero h2.1
    have hdvd : i ∣ d := Nat.dvd_of_mod_eq_zero h2.2
    have hgpos : 0 < Nat.gcd n d := Nat.gcd_pos_of_pos_left d hn
    have hig : i ∣ Nat.gcd n d := Nat.dvd_gcd hdvn hdvd
    have hge : i ≤ Nat.gcd n d := Nat.le_of_dvd hgpos hig
    have h1g : 1 < Nat.gcd n d := lt_of_lt_of_le h1 hge
    have hle : Nat.gcd n d ≤ i :=
      hinv _ h1g (Nat.gcd_dvd_left n d) (Nat.gcd_dvd_right n d)
    have hgd : Nat.gcd n d = i := le_antisymm hle hge
    have hco : Nat.gcd (n / i) (d / i) = 1 := by
      have hcop := Nat.coprime_div_gcd_div_gcd (m := n) (n := d) hgpos
      rw [hgd] at hcop
      exact hcop
    have hn2 : 0 < n / i := Nat.div_pos (Nat.le_of_dvd hn hdvn) (by omega)
    have hd2 : 0 < d / i := Nat.div_pos (Nat.le_of_dvd hd hdvd) (by omega)
    rw [reduceLoop, dif_pos h1, dif_pos h2]
    rw [ih hn2 hd2 ?_]
    · rw [hco, Nat.div_one, hgd]
    · intro k hk hk1 hk2
      have hkg : k ∣ Nat.gcd (n / i) (d / i) := Nat.dvd_gcd hk1 hk2
      rw [hco] at hkg
      have := Nat.le_of_dvd one_pos hkg
      omega
  | case2 n d i h1 h2 ih =>
    intro hn hd hinv
    rw [reduceLoop, dif_pos h1, dif_neg h2]
    apply ih hn hd
    intro k hk hkn hkd
    have hki : k ≤ i := hinv k hk hkn hkd
    have hne : k ≠ i := by
      rintro rfl
      exact h2 ⟨Nat.mod_eq_zero_of_dvd hkn, Nat.mod_eq_zero_of_dvd hkd⟩
    omega
  | case3 n d i h1 =>
    intro hn hd hinv
    rw [reduceLoop, dif_neg h1]
    have hone : Nat.gcd n d = 1 := by
      by_contra hne
      have hgpos : 0 < Nat.gcd n d := Nat.gcd_pos_of_pos_left d hn
      have h1g : 1 < Nat.gcd n d := by omega
      have := hinv _ h1g (Nat.gcd_dvd_left n d) (Nat.gcd_dvd_right n d)
      omega
    rw [hone, Nat.div_one]

theorem reducedDenominator_eq (n d : Nat) (hn : 0 < n) (hd : 0 < d) :
    reducedDenominator n d = d / Nat.gcd n d := by
  apply reduceLoop_eq_gcd n d _ hn hd
  intro k _ hkn hkd
  exact le_min (Nat.le_of_dvd hn hkn) (Nat.le_of_dvd hd hkd)

/-- C5: for positive sample rates `Fs = formatFrom.sampleRate` and
`Ft = formatTo.sampleRate`, `reducedDenominator Fs Ft = Ft / gcd Fs Ft`, so
the number of precomputed kernels `myPrecomputedKernelCount` set by the
constructor is exactly the denominator of `Fs / Ft` in lowest terms. -/
theorem kernelCount_reducedDenominator (formatFrom formatTo : Format)
    (q : List (List Int)) (p : Nat) (kernels : Nat → Nat → ℚ) (alpha : ℚ)
    (h1 : 0 < formatFrom.sampleRate) (h2 : 0 < formatTo.sampleRate) :
    (mkLanczosResampler formatFrom formatTo q p kernels alpha).myPrecomputedKernelCount
        = formatTo.sampleRate / Nat.gcd formatFrom.sampleRate formatTo.sampleRate
    ∧ reducedDenominator formatFrom.sampleRate formatTo.sampleRate
        = formatTo.sampleRate / Nat.gcd formatFrom.sampleRate formatTo.sampleRate := by
  constructor <;> exact reducedDenominator_eq _ _ h1 h2

theorem kernelCount_reducedDenominator_witness :
    (mkLanczosResampler ⟨6, 2, false⟩ ⟨4, 2, true⟩ [] 1 (fun _ _ => 0) 0).myPrecomputedKernelCount
      = 4 / Nat.gcd 6 4 :=
  (kernelCount_reducedDenominator ⟨6, 2, false⟩ ⟨4, 2, true⟩ [] 1 (fun _ _ => 0) 0
    (by decide) (by decide)).1

theorem convAux_eq_sum (data kernel : List ℚ) (first sz : Nat) (m : Nat) :
    convAux data kernel first sz m
      = Finset.sum (Finset.range m)
          (fun i => kernel.getD i 0 * data.getD ((first + i) % sz) 0) := by
  induction m with
  | zero => simp [convAux]
  | succ k ih => rw [convAux, ih, Finset.sum_range_succ]

/-- C4: for a buffer of fixed size `mySize`, `shift v` overwrites the oldest
stored sample (the one at `myFirstIndex`) with `v` and advances the
oldest-sample index by one modulo the size, so the previous oldest sample
is evicted and `v` becomes the newest (`nthOldest _ (mySize - 1)`), while
each remaining `i`-th oldest was the `(i+1)`-th oldest before; and
`convoluteWith kernel` returns the dot product of `kernel i` with the
`i`-th oldest stored sample for `i < mySize` (it does not modify the
buffer: it is a pure function of it). -/
theorem convolutionBuffer_spec (b : ConvolutionBuffer) (v : ℚ) (kernel : List ℚ)
    (h : b.myFirstIndex < b.mySize) :
    (b.shift v).mySize = b.mySize
    ∧ (b.shift v).myFirstIndex = (b.myFirstIndex + 1) % b.mySize
    ∧ nthOldest (b.shift v) (b.mySize - 1) = v
    ∧ (∀ i, i + 1 < b.mySize → nthOldest (b.shift v) i = nthOldest b (i + 1))
    ∧ b.convoluteWith kernel
        = Finset.sum (Finset.range b.mySize) (fun i => kernel.getD i 0 * nthOldest b i) := by
  have hS : 0 < b.mySize := Nat.pos_of_ne_zero (by omega)
  have hlen : b.myFirstIndex < b.myData.length := h
  refine ⟨?_, rfl, ?_, ?_, ?_⟩
  · simp [ConvolutionBuffer.shift, ConvolutionBuffer.mySize]
  · simp only [nthOldest, ConvolutionBuffer.shift, ConvolutionBuffer.mySize, List.length_set]
    have hidx2 : ((b.myFirstIndex + 1) % b.myData.length + (b.myData.length - 1))
        % b.myData.length = b.myFirstIndex := by
      rw [Nat.mod_add_mod]
      have he : b.myFirstIndex + 1 + (b.myData.length - 1)
          = b.myFirstIndex + b.myData.length := by
        have : 0 < b.myData.length := hS
        omega
      rw [he, Nat.add_mod_right, Nat.mod_eq_of_lt hlen]
    rw [hidx2, List.getD_eq_getElem?_getD, List.getElem?_set_self hlen]
    rfl
  · intro i hi
    simp only [nthOldest, ConvolutionBuffer.shift, ConvolutionBuffer.mySize, List.length_set]
    have hidx3 : ((b.myFirstIndex + 1) % b.myData.length + i) % b.myData.length
        = (b.myFirstIndex + (i + 1)) % b.myData.length := by
      rw [Nat.mod_add_mod]
      have he : b.myFirstIndex + 1 + i = b.myFirstIndex + (i + 1) := by omega
      rw [he]
    have hne : b.myFirstIndex ≠ (b.myFirstIndex + (i + 1)) % b.myData.length := by
      have hi2 : i + 1 < b.myData.length := hi
      rcases Nat.lt_or_ge (b.myFirstIndex + (i + 1)) b.myData.length with hc | hc
      · rw [Nat.mod_eq_of_lt hc]; omega
      · have hlt : b.myFirstIndex + (i + 1) - b.myData.length < b.myData.length := by omega
        rw [Nat.mod_eq_sub_mod hc, Nat.mod_eq_of_lt hlt]; omega
    rw [hidx3, List.getD_eq_getElem?_getD, List.getElem?_set_ne hne,
      ← List.getD_eq_getElem?_getD]
  · rw [ConvolutionBuffer.convoluteWith, convAux_eq_sum]
    rfl

theorem convolutionBuffer_spec_witness :
    nthOldest (ConvolutionBuffer.shift cb0 5) (cb0.mySize - 1) = 5 :=
  (convolutionBuffer_spec cb0 5 [1, 1, 1] (by decide)).2.2.1

theorem countUpd_replicate (k : FMKind) (n : Nat) (es : List Ev) :
    countUpd k k (List.replicate n Ev.tiaUpdate ++ es) = n + countUpd k k es := by
  induction n with
  | zero => simp
  | succ m ih =>
    rw [List.replicate_succ, List.cons_append]
    show (if k = k then 1 else 0) + countUpd k k (List.replicate m Ev.tiaUpdate ++ es)
        = m + 1 + countUpd k k es
    rw [if_pos rfl, ih]
    omega

/-- C6: `autodetectFrameLayout` runs the TIA for exactly 60 frame updates
with the `FrameLayoutDetector` installed as frame manager, and
`autodetectYStart` for exactly 80 with the `YStartDetector` installed;
in both cases the normal `FrameManager` is reinstalled afterwards (the
detector, a stack local, is discarded). -/
theorem autodetect_bounded_runs (step resetB : Blob → Blob)
    (classify : List Blob → Option FrameLayout) (ysd : FrameLayout → List Blob → Nat)
    (reset : Bool) (st : Console) (c : FMKind) :
    countUpd FMKind.layoutDetector c (autodetectFrameLayout step resetB classify reset st).2 = 60
    ∧ (autodetectFrameLayout step resetB classify reset st).1.myFrameManager = FMKind.normal
    ∧ countUpd FMKind.ystartDetector c (autodetectYStart step resetB ysd reset st).2 = 80
    ∧ (autodetectYStart step resetB ysd reset st).1.myFrameManager = FMKind.normal := by
  refine ⟨?_, rfl, ?_, rfl⟩ <;>
    cases reset <;>
      simp [autodetectFrameLayout, autodetectYStart, countUpd, countUpd_replicate]

/-- C2: saving the console state and loading it back from the same
serialized data succeeds and restores the persisted components (system —
which owns the chip and frame-layout state —, controllers, switches)
bit-exact, whatever state the console had drifted to in between; hence any
deterministic subsequent evolution of the chip state coincides with that
of the saved state. -/
theorem console_save_load_roundtrip (st st2 : Console) :
    (Console.load (Console.save st []) st2).1 = true
    ∧ (Console.load (Console.save st []) st2).2.mySystem = st.mySystem
    ∧ (Console.load (Console.save st []) st2).2.myLeftControl = st.myLeftControl
    ∧ (Console.load (Console.save st []) st2).2.myRightControl = st.myRightControl
    ∧ (Console.load (Console.save st []) st2).2.mySwitches = st.mySwitches
    ∧ ∀ (step : Blob → Blob) (n : Nat),
        Nat.iterate step n (Console.load (Console.save st []) st2).2.mySystem
          = Nat.iterate step n st.mySystem :=
  ⟨rfl, rfl, rfl, rfl, rfl, fun _ _ => rfl⟩

/-- C3 counterexample: loading from a serializer that holds a valid system
chunk but nothing further returns `false`, yet the console state has
changed — the system component keeps the newly loaded state, so a partial
application of snapshot state did occur. -/
theorem consoleLoad_partial_counterexample :
    (Console.load [[1]] st0c).1 = false ∧ (Console.load [[1]] st0c).2 ≠ st0c := by
  refine ⟨rfl, fun hcontra => ?_⟩
  have hsys : (Console.load [[1]] st0c).2.mySystem = st0c.mySystem := by rw [hcontra]
  simp [Console.load, st0c] at hsys

/-- C3 amended: `Console::load` returns `false` whenever restoring a
component fails (here: the serializer is exhausted), and `true` with all
four components restored otherwise; on failure the components restored
before the failing one keep their newly loaded values (partial application
of the snapshot occurs) while the remaining components keep their prior
state. -/
theorem consoleLoad_characterization (st : Console) :
    Console.load [] st = (false, st)
    ∧ (∀ a, Console.load [a] st = (false, { st with mySystem := a }))
    ∧ (∀ a b, Console.load [a, b] st
        = (false, { st with mySystem := a, myLeftControl := b }))
    ∧ (∀ a b c, Console.load [a, b, c] st
        = (false, { st with mySystem := a, myLeftControl := b, myRightControl := c }))
    ∧ (∀ a b c d rest, Console.load (a :: b :: c :: d :: rest) st
        = (true, { st with mySystem := a, myLeftControl := b, myRightControl := c,
                           mySwitches := d })) :=
  ⟨rfl, fun _ => rfl, fun _ _ => rfl, fun _ _ _ => rfl, fun _ _ _ _ _ => rfl⟩

/-- C9: `redetectFrameLayout` and `redetectYStart` (save state, run the
bounded detection harness, reload the saved state) leave the console's
emulation state — system, controllers and switches — exactly as before
the call, for every chip dynamics and detector classification. -/
theorem redetect_preserves_state (step resetB : Blob → Blob)
    (classify : List Blob → Option FrameLayout) (ysd : FrameLayout → List Blob → Nat)
    (st : Console) :
    ((redetectFrameLayout step resetB classify ysd st).mySystem = st.mySystem
      ∧ (redetectFrameLayout step resetB classify ysd st).myLeftControl = st.myLeftControl
      ∧ (redetectFrameLayout step resetB classify ysd st).myRightControl = st.myRightControl
      ∧ (redetectFrameLayout step resetB classify ysd st).mySwitches = st.mySwitches)
    ∧ ((redetectYStart step resetB ysd st).mySystem = st.mySystem
      ∧ (redetectYStart step resetB ysd st).myLeftControl = st.myLeftControl
      ∧ (redetectYStart step resetB ysd st).myRightControl = st.myRightControl
      ∧ (redetectYStart step resetB ysd st).mySwitches = st.mySwitches) :=
  ⟨⟨rfl, rfl, rfl, rfl⟩, ⟨rfl, rfl, rfl, rfl⟩⟩

theorem autodetectFrameLayout_format_eq (step resetB : Blob → Blob)
    (classify : List Blob → Option FrameLayout) (reset : Bool) (st : Console) :
    (autodetectFrameLayout step resetB classify reset st).1.myDisplayFormat
      = (if detectedLayout classify
            (runDetection step 60 (if reset then resetB st.mySystem else st.mySystem)).2
            = FrameLayout.pal
         then "PAL" else "NTSC") := by
  cases reset <;> rfl

/-- C7: after `autodetectFrameLayout`, the display format is "PAL" exactly
when the detector classified the frames as the PAL layout, and in every
other case — including when no stable pattern was found within the bounded
60-frame window (`classify` reports nothing and the detector falls back) —
it is "NTSC"; the call always produces one of the two formats, never an
error. -/
theorem autodetectFrameLayout_format (step resetB : Blob → Blob)
    (classify : List Blob → Option FrameLayout) (reset : Bool) (st : Console) :
    ((autodetectFrameLayout step resetB classify reset st).1.myDisplayFormat = "PAL"
      ∨ (autodetectFrameLayout step resetB classify reset st).1.myDisplayFormat = "NTSC")
    ∧ ((autodetectFrameLayout step resetB classify reset st).1.myDisplayFormat = "PAL"
        ↔ detectedLayout classify
            (runDetection step 60 (if reset then resetB st.mySystem else st.mySystem)).2
          = FrameLayout.pal)
    ∧ (classify (runDetection step 60 (if reset then resetB st.mySystem else st.mySystem)).2
          = none →
        (autodetectFrameLayout step resetB classify reset st).1.myDisplayFormat = "NTSC") := by
  rw [autodetectFrameLayout_format_eq]
  refine ⟨?_, ?_, ?_⟩
  · by_cases hc : detectedLayout classify
        (runDetection step 60 (if reset then resetB st.mySystem else st.mySystem)).2
        = FrameLayout.pal
    · exact Or.inl (if_pos hc)
    · exact Or.inr (if_neg hc)
  · constructor
    · intro hfmt
      by_contra hne
      rw [if_neg hne] at hfmt
      exact absurd hfmt (by decide)
    · intro hc
      rw [if_pos hc]
  · intro hnone
    rw [if_neg (by simp [detectedLayout, hnone])]

theorem autodetectFrameLayout_format_witness :
    (autodetectFrameLayout id id (fun _ => none) false st0c).1.myDisplayFormat = "NTSC" :=
  (autodetectFrameLayout_format id id (fun _ => none) false st0c).2.2 rfl

theorem u32sub_two (a : Nat) (h1 : 2 ≤ a) (h2 : a < 4294967296) :
    u32sub a 2 = a - 2 := by
  unfold u32sub
  omega

/-- C10: `autodetectYStart` sets `myAutodetectedYstart` to the
`YStartDetector`'s reported value minus `YSTART_EXTRA = 2` (not the value
itself) and sets `myYStartAutodetected`; the same offset is applied on
re-detection (`redetectYStart`).  (The reported value is assumed to be at
least 2 and to fit in a `uInt32`; below 2 the `uInt32` subtraction would
wrap.) -/
theorem autodetectYStart_offset (step resetB : Blob → Blob)
    (ysd : FrameLayout → List Blob → Nat) (reset : Bool) (st : Console)
    (h1 : 2 ≤ ysDetected step resetB ysd reset st)
    (h2 : ysDetected step resetB ysd reset st < 4294967296)
    (h3 : 2 ≤ ysDetected step resetB ysd false st)
    (h4 : ysDetected step resetB ysd false st < 4294967296) :
    (autodetectYStart step resetB ysd reset st).1.myAutodetectedYstart
        = ysDetected step resetB ysd reset st - YSTART_EXTRA
    ∧ (autodetectYStart step resetB ysd reset st).1.myYStartAutodetected = true
    ∧ (redetectYStart step resetB ysd st).myAutodetectedYstart
        = ysDetected step resetB ysd false st - YSTART_EXTRA
    ∧ (redetectYStart step resetB ysd st).myYStartAutodetected = true := by
  have e1 : ∀ r, (autodetectYStart step resetB ysd r st).1.myAutodetectedYstart
      = u32sub (ysDetected step resetB ysd r st) YSTART_EXTRA := by
    intro r
    cases r <;> rfl
  refine ⟨?_, rfl, ?_, rfl⟩
  · rw [e1]
    exact u32sub_two _ h1 h2
  · show (autodetectYStart step resetB ysd false st).1.myAutodetectedYstart
        = ysDetected step resetB ysd false st - YSTART_EXTRA
    rw [e1]
    exact u32sub_two _ h3 h4

theorem autodetectYStart_offset_witness :
    (autodetectYStart id id (fun _ _ => 5) false st0c).1.myAutodetectedYstart
      = ysDetected id id (fun _ _ => 5) false st0c - YSTART_EXTRA :=
  (autodetectYStart_offset id id (fun _ _ => 5) false st0c
    (by decide) (by decide) (by decide) (by decide)).1

theorem fillEven_get (tbl pix : Nat → Nat) (n m : Nat) :
    fillEven tbl pix n m = if m % 2 = 0 ∧ m < 2 * n then pix (m / 2) else tbl m := by
  induction n with
  | zero => simp [fillEven]
  | succ k ih =>
    show setIdx (fillEven tbl pix k) (2 * k) (pix k) m = _
    unfold setIdx
    by_cases hm : m = 2 * k
    · rw [if_pos hm, if_pos ⟨by omega, by omega⟩]
      subst hm
      have he : 2 * k / 2 = k := by omega
      rw [he]
    · rw [if_neg hm, ih]
      by_cases h2 : m % 2 = 0 ∧ m < 2 * k
      · rw [if_pos h2, if_pos ⟨h2.1, by omega⟩]
      · rw [if_neg h2, if_neg ?_]
        intro hc
        exact h2 ⟨hc.1, by omega⟩

theorem fillAll_get (tbl v : Nat → Nat) (n m : Nat) :
    fillAll tbl v n m = if m < n then v m else tbl m := by
  induction n with
  | zero => simp [fillAll]
  | succ k ih =>
    show setIdx (fillAll tbl v k) k (v k) m = _
    unfold setIdx
    by_cases hm : m = k
    · rw [if_pos hm, if_pos (by omega)]
      subst hm
      rfl
    · rw [if_neg hm, ih]
      by_cases h2 : m < k
      · rw [if_pos h2, if_pos (by omega)]
      · rw [if_neg h2, if_neg (by omega)]

/-- C8: if the user palette file cannot be opened or holds fewer than 792
bytes (`128 * 3 * 2 + 8 * 3`), `loadUserPalette` leaves every user palette
table unchanged and the `myUserPaletteDefined` flag untouched (so the
feature stays disabled); with at least 792 bytes, the tables are populated
from consecutive 3-byte RGB triples in the documented order (128 NTSC,
128 PAL, then 8 SECAM triples, the latter repeated over the whole table
with zeroed odd entries) and `myUserPaletteDefined` becomes `true`. -/
theorem loadUserPalette_spec (file : Option (List Nat)) (st : PaletteState) :
    (file = none → loadUserPalette file st = st)
    ∧ (∀ bytes, file = some bytes → bytes.length < 792 → loadUserPalette file st = st)
    ∧ (∀ bytes, file = some bytes → 792 ≤ bytes.length →
        (loadUserPalette file st).myUserPaletteDefined = true
        ∧ (∀ i, i < 128 →
            (loadUserPalette file st).ourUserNTSCPalette (2 * i) = pixelAt bytes 0 i)
        ∧ (∀ i, i < 128 →
            (loadUserPalette file st).ourUserPALPalette (2 * i) = pixelAt bytes 384 i)
        ∧ (∀ k, k < 256 →
            (loadUserPalette file st).ourUserSECAMPalette k
              = if k % 2 = 0 then pixelAt bytes 768 (k % 16 / 2) else 0)) := by
  refine ⟨?_, ?_, ?_⟩
  · rintro rfl
    rfl
  · rintro bytes rfl hlen
    show (if bytes.length < 128 * 3 * 2 + 8 * 3 then st else _) = st
    rw [if_pos (by omega)]
  · rintro bytes rfl hlen
    have hbr : loadUserPalette (some bytes) st =
        { ourUserNTSCPalette := fillEven st.ourUserNTSCPalette (pixelAt bytes 0) 128
          ourUserPALPalette := fillEven st.ourUserPALPalette (pixelAt bytes 384) 128
          ourUserSECAMPalette := fillAll st.ourUserSECAMPalette
            (fun k => if k % 16 % 2 = 0 then pixelAt bytes 768 (k % 16 / 2) else 0) 256
          myUserPaletteDefined := true } := by
      show (if bytes.length < 128 * 3 * 2 + 8 * 3 then st else _) = _
      rw [if_neg (by omega)]
    rw [hbr]
    refine ⟨rfl, ?_, ?_, ?_⟩
    · intro i hi
      show fillEven st.ourUserNTSCPalette (pixelAt bytes 0) 128 (2 * i) = _
      rw [fillEven_get, if_pos ⟨by omega, by omega⟩]
      have he : 2 * i / 2 = i := by omega
      rw [he]
    · intro i hi
      show fillEven st.ourUserPALPalette (pixelAt bytes 384) 128 (2 * i) = _
      rw [fillEven_get, if_pos ⟨by omega, by omega⟩]
      have he : 2 * i / 2 = i := by omega
      rw [he]
    · intro k hk
      show fillAll st.ourUserSECAMPalette
          (fun k => if k % 16 % 2 = 0 then pixelAt bytes 768 (k % 16 / 2) else 0) 256 k = _
      rw [fillAll_get, if_pos hk]
      have hmod : k % 16 % 2 = k % 2 := by omega
      rw [hmod]

theorem loadUserPalette_spec_witness :
    (loadUserPalette (some (List.replicate 792 7)) st0p).myUserPaletteDefined = true
    ∧ loadUserPalette none st0p = st0p :=
  ⟨((loadUserPalette_spec (some (List.replicate 792 7)) st0p).2.2 (List.replicate 792 7) rfl
      (by rw [List.length_replicate])).1,
    (loadUserPalette_spec none st0p).1 rfl⟩

theorem shiftOne_formatTo (st : LanczosResampler) :
    (shiftOne st).formatTo = st.formatTo := by
  unfold shiftOne
  cases st.myCurrentFragment with
  | none => rfl
  | some frag =>
    dsimp only
    repeat' split
    all_goals rfl

theorem shiftSamples_formatTo (k : Nat) : ∀ st : LanczosResampler,
    (shiftSamples st k).formatTo = st.formatTo := by
  induction k with
  | zero => intro st; rfl
  | succ m ih =>
    intro st
    show (shiftSamples (shiftOne st) m).formatTo = st.formatTo
    rw [ih, shiftOne_formatTo]

theorem fillIter_formatTo (st : LanczosResampler) (out : Nat → Option ℚ) (i : Nat) :
    (fillIter st out i).1.formatTo = st.formatTo := by
  unfold fillIter
  dsimp only
  repeat' split
  all_goals first
    | rfl
    | rw [shiftSamples_formatTo]

theorem fillIter_snd_stereo (st : LanczosResampler) (out : Nat → Option ℚ) (i : Nat)
    (hb : st.formatTo.stereo = true) :
    ∃ a b, (fillIter st out i).2 = writeOut (writeOut out (2 * i) a) (2 * i + 1) b := by
  unfold fillIter
  dsimp only
  cases hf : st.formatFrom.stereo <;>
    simp only [hf, hb, Bool.false_eq_true, if_false, if_true] <;>
      split <;> exact ⟨_, _, rfl⟩

theorem fillIter_snd_mono (st : LanczosResampler) (out : Nat → Option ℚ) (i : Nat)
    (hb : st.formatTo.stereo = false) :
    ∃ a, (fillIter st out i).2 = writeOut out i a := by
  unfold fillIter
  dsimp only
  cases hf : st.formatFrom.stereo <;>
    simp only [hf, hb, Bool.false_eq_true, if_false, if_true] <;>
      split <;> exact ⟨_, rfl⟩

theorem coveredTo_zero (b : Bool) : coveredTo b 0 = 0 := by
  cases b <;> simp [coveredTo]

theorem fillFrom_covers (r : Nat) :
    ∀ (st : LanczosResampler) (out : Nat → Option ℚ) (i : Nat),
      (∀ j, j < coveredTo st.formatTo.stereo i → (out j).isSome = true) →
      ∀ j, j < coveredTo st.formatTo.stereo (i + r) →
        ((fillFrom st out i r).2 j).isSome = true := by
  induction r with
  | zero =>
    intro st out i h j hj
    exact h j hj
  | succ m ih =>
    intro st out i h j hj
    show ((fillFrom (fillIter st out i).1 (fillIter st out i).2 (i + 1) m).2 j).isSome = true
    refine ih (fillIter st out i).1 (fillIter st out i).2 (i + 1) ?_ j ?_
    · intro j2 hj2
      rw [fillIter_formatTo] at hj2
      cases hb : st.formatTo.stereo with
      | true =>
        obtain ⟨a, b, heq⟩ := fillIter_snd_stereo st out i hb
        rw [heq]
        rw [hb] at hj2
        by_cases h1 : j2 = 2 * i + 1
        · simp [writeOut, h1]
        · by_cases h2 : j2 = 2 * i
          · simp [writeOut, h1, h2]
          · have hlt : j2 < 2 * i := by
              have hx : j2 < 2 * (i + 1) := by simpa [coveredTo] using hj2
              omega
            have hsome := h j2 (by rw [hb]; simpa [coveredTo] using hlt)
            simp only [writeOut, if_neg h1, if_neg h2]
            exact hsome
      | false =>
        obtain ⟨a, heq⟩ := fillIter_snd_mono st out i hb
        rw [heq]
        rw [hb] at hj2
        by_cases h1 : j2 = i
        · simp [writeOut, h1]
        · have hlt : j2 < i := by
            have hx : j2 < i + 1 := by simpa [coveredTo] using hj2
            omega
          have hsome := h j2 (by rw [hb]; simpa [coveredTo] using hlt)
          simp only [writeOut, if_neg h1]
          exact hsome
    · rw [fillIter_formatTo]
      have he : i + 1 + m = i + (m + 1) := by omega
      rw [he]
      exact hj

theorem fillFrom_frame (r : Nat) :
    ∀ (st : LanczosResampler) (out : Nat → Option ℚ) (i j : Nat),
      coveredTo st.formatTo.stereo (i + r) ≤ j →
      (fillFrom st out i r).2 j = out j := by
  induction r with
  | zero => intro st out i j _; rfl
  | succ m ih =>
    intro st out i j hj
    show (fillFrom (fillIter st out i).1 (fillIter st out i).2 (i + 1) m).2 j = out j
    have hstep := ih (fillIter st out i).1 (fillIter st out i).2 (i + 1) j (by
      rw [fillIter_formatTo]
      have he : i + 1 + m = i + (m + 1) := by omega
      rw [he]
      exact hj)
    rw [hstep]
    cases hb : st.formatTo.stereo with
    | true =>
      obtain ⟨a, b, heq⟩ := fillIter_snd_stereo st out i hb
      rw [heq]
      rw [hb] at hj
      have hge : 2 * (i + (m + 1)) ≤ j := by simpa [coveredTo] using hj
      have h1 : j ≠ 2 * i + 1 := by omega
      have h2 : j ≠ 2 * i := by omega
      simp [writeOut, h1, h2]
    | false =>
      obtain ⟨a, heq⟩ := fillIter_snd_mono st out i hb
      rw [heq]
      rw [hb] at hj
      have hge : i + (m + 1) ≤ j := by simpa [coveredTo] using hj
      have h1 : j ≠ i := by omega
      simp [writeOut, h1]

theorem pullIfUnderrun_formatTo (st : LanczosResampler) :
    (pullIfUnderrun st).formatTo = st.formatTo := by
  unfold pullIfUnderrun
  split
  · split <;> rfl
  · rfl

theorem pullIfUnderrun_queue_nil (st : LanczosResampler) (hq : st.queue = []) :
    pullIfUnderrun st = st := by
  unfold pullIfUnderrun
  split
  · rw [hq]
  · rfl

theorem pullIfUnderrun_some (st : LanczosResampler) (f : List Int)
    (h : st.myCurrentFragment = some f) :
    ∃ g, (pullIfUnderrun st).myCurrentFragment = some g := by
  unfold pullIfUnderrun
  split
  · split
    · exact ⟨_, rfl⟩
    · exact ⟨f, h⟩
  · exact ⟨f, h⟩

/-- C1 as amended: `fillFragment` always returns (no blocking is possible,
whatever the queue holds, including mid-call underrun, which only bumps the
diagnostic log); if no source fragment has ever been obtained — none is
current and the producer has none to offer — it writes `length` zero
samples and nothing else; otherwise it writes a resampled value into every
position below `2 * (length / 2)` when the target format is stereo
(respectively below `length` when mono) and leaves the positions from
there on — in particular the final position, when the target is stereo
and `length` is odd — unwritten. -/
theorem fillFragment_spec (st : LanczosResampler) (len : Nat) :
    (st.myCurrentFragment = none → st.queue = [] →
      ∀ i, (fillFragment st len).2 i = if i < len then some 0 else none)
    ∧ (∀ i, i < (if st.formatTo.stereo then 2 * (len / 2) else len) →
        ((fillFragment st len).2 i).isSome = true)
    ∧ (∀ f, st.myCurrentFragment = some f →
        ∀ i, (if st.formatTo.stereo then 2 * (len / 2) else len) ≤ i →
          (fillFragment st len).2 i = none) := by
  refine ⟨?_, ?_, ?_⟩
  · intro hfrag hq i
    unfold fillFragment
    dsimp only
    rw [pullIfUnderrun_queue_nil st hq, hfrag]
  · intro i hi
    unfold fillFragment
    dsimp only
    cases hc : (pullIfUnderrun st).myCurrentFragment with
    | none =>
      have hcov : (if st.formatTo.stereo then 2 * (len / 2) else len) ≤ len := by
        cases st.formatTo.stereo
        · simp
        · simp
          omega
      have hi2 : i < len := lt_of_lt_of_le hi hcov
      simp [hi2]
    | some f =>
      have hft := pullIfUnderrun_formatTo st
      refine fillFrom_covers _ _ _ _ ?_ i ?_
      · intro j hj
        rw [coveredTo_zero] at hj
        omega
      · rw [hft, Nat.zero_add]
        cases hb : st.formatTo.stereo with
        | true =>
          rw [hb] at hi
          simpa [coveredTo] using hi
        | false =>
          rw [hb] at hi
          simpa [coveredTo] using hi
  · intro f hfrag i hge
    unfold fillFragment
    dsimp only
    obtain ⟨g, hg⟩ := pullIfUnderrun_some st f hfrag
    rw [hg]
    have hft := pullIfUnderrun_formatTo st
    refine (fillFrom_frame _ _ _ _ _ ?_).trans rfl
    rw [hft, Nat.zero_add]
    cases hb : st.formatTo.stereo with
    | true =>
      rw [hb] at hge
      simpa [coveredTo] using hge
    | false =>
      rw [hb] at hge
      simpa [coveredTo] using hge

/-- C1 counterexample: a resampler with a stereo target format and a
current source fragment, asked for an odd `length` of 1, writes nothing at
all into the output — position 0 (which is below `length`) stays unwritten,
so the call does not populate all `length` entries as the claim states. -/
theorem fillFragment_stereoOdd_counterexample :
    stC1.formatTo.stereo = true ∧ stC1.myCurrentFragment.isSome = true
    ∧ (fillFragment stC1 1).2 0 = none :=
  ⟨rfl, rfl, rfl⟩

theorem fillFragment_spec_witness :
    ((fillFragment stC1 2).2 0).isSome = true
    ∧ ((fillFragment stC1 2).2 1).isSome = true :=
  ⟨(fillFragment_spec stC1 2).2.1 0 (by decide),
    (fillFragment_spec stC1 2).2.1 1 (by decide)⟩

end Stella
